import Mathlib

/-!
Verification of the Diagnostic & Troubleshooting Agent API
(`main.py`, `utils.py`, `troubleshooting_agent.py`, `apitimeissue.py`).

The Python code is shallowly embedded: the in-memory pending-confirmation
dictionary becomes an association list, each HTTP handler becomes a pure
function from its inputs (request fields, current time, agent reply,
backend outcomes) to its response together with the updated store and the
list of backend side effects it performed.  Machine time is a `Nat`
(seconds); remote calls that may fail are `Option`/`Bool` fields of an
environment record.
-/

namespace HelpdeskAssistant

/-- Python truthiness of an optional string: `None` and `""` are falsy.
Mirrors `if not source_script:` / `if not runbook_name:` checks. -/
def pyFalsy : Option String → Bool
  | none => true
  | some s => s = ""

/-- One value of the `PENDING_CONFIRMATIONS` dict in `main.py`
(`{"runbook_name": ..., "full_text": ..., "expires_at": ...}`). -/
structure PendingEntry where
  runbook_name : String
  full_text : String
  expires_at : Nat
  deriving DecidableEq, Repr

/-- The `PENDING_CONFIRMATIONS` dict, keyed by target machine.
Modelled as an association list whose first binding for a key is its
value; the operations below keep at most one binding per key. -/
def Store := List (String × PendingEntry)

instance : DecidableEq Store := inferInstanceAs (DecidableEq (List (String × PendingEntry)))

/-- `PENDING_CONFIRMATIONS.get(machine)`. -/
def lookupStore (k : String) (st : Store) : Option PendingEntry :=
  (st.find? (fun p => p.1 = k)).map (fun p => p.2)

/-- `del PENDING_CONFIRMATIONS[machine]`. -/
def eraseStore (k : String) (st : Store) : Store :=
  st.filter (fun p => ¬ p.1 = k)

/-- `PENDING_CONFIRMATIONS[machine] = {...}` (dict assignment overwrites). -/
def insertStore (k : String) (v : PendingEntry) (st : Store) : Store :=
  (k, v) :: eraseStore k st

/-- `PENDING_TTL_SECONDS = 300` in `main.py`. -/
def PENDING_TTL_SECONDS : Nat := 300

/-- `cleanup_expired_pending` in `main.py`: collects every machine whose
entry has `expires_at <= now` and deletes those entries. -/
def cleanup_expired_pending (now : Nat) (st : Store) : Store :=
  st.filter (fun p => ¬ p.2.expires_at ≤ now)

theorem lookupStore_nil (j : String) : lookupStore j ([] : Store) = none := rfl

theorem lookupStore_cons (j a : String) (v : PendingEntry) (rest : Store) :
    lookupStore j ((a, v) :: rest) =
      if a = j then some v else lookupStore j rest := by
  by_cases h : a = j <;> simp [lookupStore, List.find?_cons, h]

theorem eraseStore_cons (k a : String) (v : PendingEntry) (rest : Store) :
    eraseStore k ((a, v) :: rest) =
      if a = k then eraseStore k rest else (a, v) :: eraseStore k rest := by
  by_cases h : a = k <;> simp [eraseStore, List.filter_cons, h]

theorem cleanup_cons (now : Nat) (a : String) (v : PendingEntry) (rest : Store) :
    cleanup_expired_pending now ((a, v) :: rest) =
      if v.expires_at ≤ now then cleanup_expired_pending now rest
      else (a, v) :: cleanup_expired_pending now rest := by
  by_cases h : v.expires_at ≤ now <;> simp [cleanup_expired_pending, List.filter_cons, h]

theorem lookup_insert_self (k : String) (v : PendingEntry) (st : Store) :
    lookupStore k (insertStore k v st) = some v := by
  simp [insertStore, lookupStore_cons]

theorem lookup_erase_self (k : String) (st : Store) :
    lookupStore k (eraseStore k st) = none := by
  induction st with
  | nil => rfl
  | cons p rest ih =>
    obtain ⟨a, v⟩ := p
    rw [eraseStore_cons]
    by_cases h : a = k
    · simpa [h] using ih
    · simpa [h, lookupStore_cons] using ih

theorem lookup_erase_ne (k j : String) (st : Store) (h : j ≠ k) :
    lookupStore j (eraseStore k st) = lookupStore j st := by
  induction st with
  | nil => rfl
  | cons p rest ih =>
    obtain ⟨a, v⟩ := p
    rw [eraseStore_cons]
    by_cases hk : a = k
    · subst hk
      rw [if_pos rfl, lookupStore_cons, if_neg (fun h2 => h h2.symm), ih]
    · rw [if_neg hk, lookupStore_cons, lookupStore_cons]
      by_cases hj : a = j
      · rw [if_pos hj, if_pos hj]
      · rw [if_neg hj, if_neg hj, ih]

theorem lookup_insert_ne (k j : String) (v : PendingEntry) (st : Store) (h : j ≠ k) :
    lookupStore j (insertStore k v st) = lookupStore j st := by
  rw [insertStore, lookupStore_cons, if_neg (fun hk => h hk.symm), lookup_erase_ne k j st h]

/-- The keys of the store (target machines with a pending entry). -/
def storeKeys (st : Store) : List String := st.map Prod.fst

/-- Invariant of the embedding: a Python dict has at most one binding per
key, so a well-formed store has pairwise-distinct keys. -/
def StoreWF (st : Store) : Prop := (storeKeys st).Nodup

instance (st : Store) : Decidable (StoreWF st) :=
  inferInstanceAs (Decidable (storeKeys st).Nodup)

theorem lookup_eq_none_of_not_mem_keys (k : String) (st : Store)
    (h : k ∉ storeKeys st) : lookupStore k st = none := by
  induction st with
  | nil => rfl
  | cons p rest ih =>
    obtain ⟨a, v⟩ := p
    rw [lookupStore_cons]
    rw [storeKeys, List.map_cons, List.mem_cons, not_or] at h
    rw [if_neg (fun hk => h.1 hk.symm)]
    exact ih h.2

theorem storeKeys_cleanup_subset (now : Nat) (st : Store) :
    storeKeys (cleanup_expired_pending now st) ⊆ storeKeys st :=
  ((List.filter_sublist st).map Prod.fst).subset

theorem storeKeys_erase_subset (k : String) (st : Store) :
    storeKeys (eraseStore k st) ⊆ storeKeys st :=
  ((List.filter_sublist st).map Prod.fst).subset

theorem storeWF_cleanup (now : Nat) (st : Store) (h : StoreWF st) :
    StoreWF (cleanup_expired_pending now st) :=
  ((List.filter_sublist st).map Prod.fst).nodup h

theorem storeWF_erase (k : String) (st : Store) (h : StoreWF st) :
    StoreWF (eraseStore k st) :=
  ((List.filter_sublist st).map Prod.fst).nodup h

theorem not_mem_keys_erase_self (k : String) (st : Store) :
    k ∉ storeKeys (eraseStore k st) := by
  intro hmem
  rw [storeKeys, List.mem_map] at hmem
  obtain ⟨p, hp, hpk⟩ := hmem
  have := List.of_mem_filter hp
  simp [hpk] at this

theorem storeWF_insert (k : String) (v : PendingEntry) (st : Store) (h : StoreWF st) :
    StoreWF (insertStore k v st) := by
  rw [insertStore, StoreWF, storeKeys, List.map_cons, List.nodup_cons]
  exact ⟨not_mem_keys_erase_self k st, storeWF_erase k st h⟩

theorem lookup_cleanup (now : Nat) (k : String) (st : Store) (hwf : StoreWF st) :
    lookupStore k (cleanup_expired_pending now st) =
      match lookupStore k st with
      | none => none
      | some e => if e.expires_at ≤ now then none else some e := by
  induction st with
  | nil => rfl
  | cons p rest ih =>
    obtain ⟨a, v⟩ := p
    rw [StoreWF, storeKeys, List.map_cons, List.nodup_cons] at hwf
    rw [cleanup_cons]
    by_cases hk : a = k
    · by_cases he : v.expires_at ≤ now
      · rw [if_pos he, lookupStore_cons, if_pos hk]
        have hnm : k ∉ storeKeys (cleanup_expired_pending now rest) :=
          fun hmem => hwf.1 (hk ▸ storeKeys_cleanup_subset now rest hmem)
        rw [lookup_eq_none_of_not_mem_keys k _ hnm]
        simp [he]
      · rw [if_neg he, lookupStore_cons, if_pos hk, lookupStore_cons, if_pos hk]
        simp [he]
    · by_cases he : v.expires_at ≤ now
      · rw [if_pos he, ih hwf.2, lookupStore_cons, if_neg hk]
      · rw [if_neg he, lookupStore_cons, if_neg hk, ih hwf.2, lookupStore_cons, if_neg hk]

/-- A call to `create_new_runbook(runbook_name, target_machine)` recorded as
a side effect of a request handler. -/
structure CloneCall where
  runbook_name : String
  target_machine : String
  deriving DecidableEq, Repr

/-- Success body of `POST /troubleshooting/analyze`. -/
structure AnalyzeResp where
  runbook_name : String
  full_description : String
  execute_pending : Bool
  deriving DecidableEq, Repr

/-- Outcome of one `/troubleshooting/analyze` request: HTTP result
(`.error` carries the status code), the updated store, and the clone
operations performed during the request. -/
structure AnalyzeOut where
  response : Except Nat AnalyzeResp
  store : Store
  cloneCalls : List CloneCall

/-- `troubleshooting_analyze` in `main.py`.  `agentName`/`agentFull` are the
tuple returned by `troubleshooting_process_issue(req.issue)`; `now` is the
current UTC time in seconds. -/
def troubleshooting_analyze (st : Store) (now : Nat) (execute : Bool)
    (target_machine : String) (agentName : Option String) (agentFull : String) :
    AnalyzeOut :=
  let st1 := cleanup_expired_pending now st
  if pyFalsy agentName then ⟨.error 404, st1, []⟩
  else
    let name := agentName.getD ""
    let st2 := if execute then
        insertStore target_machine ⟨name, agentFull, now + PENDING_TTL_SECONDS⟩ st1
      else st1
    ⟨.ok ⟨name, agentFull, execute⟩, st2, []⟩

/-- Outcome of one `/troubleshooting/confirm` request: HTTP result
(`.ok` carries the `message` field), the updated store, and the clone
operations performed. -/
structure ConfirmOut where
  response : Except Nat String
  store : Store
  cloneCalls : List CloneCall

/-- `troubleshooting_confirm` in `main.py`: sweep, then under the lock read
the pending entry for the machine (404 when absent), delete it, and on
`confirm` clone+publish the stored runbook name. -/
def troubleshooting_confirm (st : Store) (now : Nat) (confirm : Bool)
    (target_machine : String) : ConfirmOut :=
  let st1 := cleanup_expired_pending now st
  match lookupStore target_machine st1 with
  | none => ⟨.error 404, st1, []⟩
  | some pending =>
    if confirm then
      ⟨.ok ("Runbook \x27" ++ pending.runbook_name ++ "\x27 executed on " ++ target_machine),
        eraseStore target_machine st1,
        [⟨pending.runbook_name, target_machine⟩]⟩
    else
      ⟨.ok "Runbook execution cancelled.", eraseStore target_machine st1, []⟩

theorem lookup_cleanup_erase_self (now : Nat) (k : String) (st : Store) :
    lookupStore k (cleanup_expired_pending now (eraseStore k st)) = none :=
  lookup_eq_none_of_not_mem_keys k _
    (fun hmem => not_mem_keys_erase_self k st (storeKeys_cleanup_subset now _ hmem))

/-- C1: the two-step troubleshooting flow.  Step 1 with `execute = true`
stores the pending entry with a 300 s TTL; a confirm within the TTL
consumes it, performs the clone for the stored runbook name, and reports
that name in the success message; any later confirm for the same machine
finds nothing (404) and performs no clone. -/
theorem troubleshooting_two_step (st0 : Store) (hwf : StoreWF st0)
    (now1 now2 : Nat) (machine name full : String) (hname : name ≠ "")
    (httl : now2 < now1 + PENDING_TTL_SECONDS) :
    lookupStore machine (troubleshooting_analyze st0 now1 true machine (some name) full).store
      = some ⟨name, full, now1 + PENDING_TTL_SECONDS⟩ ∧
    (troubleshooting_confirm
        (troubleshooting_analyze st0 now1 true machine (some name) full).store
        now2 true machine).response
      = .ok ("Runbook \x27" ++ name ++ "\x27 executed on " ++ machine) ∧
    (troubleshooting_confirm
        (troubleshooting_analyze st0 now1 true machine (some name) full).store
        now2 true machine).cloneCalls
      = [⟨name, machine⟩] ∧
    lookupStore machine
        (troubleshooting_confirm
          (troubleshooting_analyze st0 now1 true machine (some name) full).store
          now2 true machine).store
      = none ∧
    (∀ now3 : Nat,
      (troubleshooting_confirm
          (troubleshooting_confirm
            (troubleshooting_analyze st0 now1 true machine (some name) full).store
            now2 true machine).store
          now3 true machine).response = .error 404 ∧
      (troubleshooting_confirm
          (troubleshooting_confirm
            (troubleshooting_analyze st0 now1 true machine (some name) full).store
            now2 true machine).store
          now3 true machine).cloneCalls = []) := by
  have hfalsy : pyFalsy (some name) = false := by
    simp [pyFalsy, hname]
  have hstoreA :
      (troubleshooting_analyze st0 now1 true machine (some name) full).store
        = insertStore machine ⟨name, full, now1 + PENDING_TTL_SECONDS⟩
            (cleanup_expired_pending now1 st0) := by
    simp [troubleshooting_analyze, hfalsy]
  have hwf1 : StoreWF (insertStore machine ⟨name, full, now1 + PENDING_TTL_SECONDS⟩
      (cleanup_expired_pending now1 st0)) :=
    storeWF_insert _ _ _ (storeWF_cleanup _ _ hwf)
  have hlook1 :
      lookupStore machine (cleanup_expired_pending now2
        (insertStore machine ⟨name, full, now1 + PENDING_TTL_SECONDS⟩
          (cleanup_expired_pending now1 st0)))
        = some ⟨name, full, now1 + PENDING_TTL_SECONDS⟩ := by
    rw [lookup_cleanup now2 machine _ hwf1, lookup_insert_self]
    simp [Nat.not_le.mpr httl]
  have hconf :
      troubleshooting_confirm
          (insertStore machine ⟨name, full, now1 + PENDING_TTL_SECONDS⟩
            (cleanup_expired_pending now1 st0)) now2 true machine
        = ⟨.ok ("Runbook \x27" ++ name ++ "\x27 executed on " ++ machine),
            eraseStore machine (cleanup_expired_pending now2
              (insertStore machine ⟨name, full, now1 + PENDING_TTL_SECONDS⟩
                (cleanup_expired_pending now1 st0))),
            [⟨name, machine⟩]⟩ := by
    rw [troubleshooting_confirm]
    rw [hlook1]
    rfl
  refine ⟨?_, ?_, ?_, ?_, ?_⟩
  · rw [hstoreA, lookup_insert_self]
  · rw [hstoreA, hconf]
  · rw [hstoreA, hconf]
  · rw [hstoreA, hconf, lookup_erase_self]
  · intro now3
    rw [hstoreA, hconf]
    constructor <;>
      · rw [troubleshooting_confirm, lookup_cleanup_erase_self]

/-- Closed instance of `troubleshooting_two_step` at concrete inputs. -/
theorem troubleshooting_two_step_witness :
    (troubleshooting_confirm
        (troubleshooting_analyze [] 100 true "WKS01"
          (some "Troubleshoot_KB123") "Troubleshoot_KB123 details").store
        200 true "WKS01").response
      = .ok ("Runbook \x27Troubleshoot_KB123\x27 executed on WKS01") ∧
    (troubleshooting_confirm
        (troubleshooting_confirm
          (troubleshooting_analyze [] 100 true "WKS01"
            (some "Troubleshoot_KB123") "Troubleshoot_KB123 details").store
          200 true "WKS01").store
        201 true "WKS01").response = .error 404 := by
  have h := troubleshooting_two_step [] (by decide) 100 200 "WKS01"
    "Troubleshoot_KB123" "Troubleshoot_KB123 details" (by decide) (by decide)
  exact ⟨h.2.1, (h.2.2.2.2 201).1⟩

/-- C3 counterexample: the claim says an entry with `expires_at ≥ now`
survives the sweep, but `cleanup_expired_pending` removes entries with
`expires_at <= now`, so an entry expiring exactly at `now` is deleted. -/
theorem sweep_boundary_counterexample :
    (5 : Nat) ≥ 5 ∧
    lookupStore "WKS01"
        (cleanup_expired_pending 5 [("WKS01", ⟨"Troubleshoot_KB123", "txt", 5⟩)])
      = none := by
  constructor
  · exact le_refl 5
  · rfl

/-- C3 (amended): after `cleanup_expired_pending now`, an entry with
`expires_at ≤ now` is absent and an entry with `expires_at > now` is still
present, unchanged. -/
theorem sweep_expired_correct (now : Nat) (st : Store) (hwf : StoreWF st)
    (k : String) (e : PendingEntry) (h : lookupStore k st = some e) :
    (e.expires_at ≤ now →
      lookupStore k (cleanup_expired_pending now st) = none) ∧
    (now < e.expires_at →
      lookupStore k (cleanup_expired_pending now st) = some e) := by
  constructor
  · intro hle
    rw [lookup_cleanup now k st hwf, h]
    simp [hle]
  · intro hlt
    rw [lookup_cleanup now k st hwf, h]
    simp [Nat.not_le.mpr hlt]

/-- Closed instance of `sweep_expired_correct`: at `now = 5` a store holding
an entry expiring at 3 and one expiring at 10 keeps exactly the latter. -/
theorem sweep_expired_correct_witness :
    lookupStore "A"
        (cleanup_expired_pending 5
          [("A", ⟨"R1", "t1", 3⟩), ("B", ⟨"R2", "t2", 10⟩)]) = none ∧
    lookupStore "B"
        (cleanup_expired_pending 5
          [("A", ⟨"R1", "t1", 3⟩), ("B", ⟨"R2", "t2", 10⟩)]) = some ⟨"R2", "t2", 10⟩ := by
  constructor
  · exact (sweep_expired_correct 5 [("A", ⟨"R1", "t1", 3⟩), ("B", ⟨"R2", "t2", 10⟩)]
      (by decide) "A" ⟨"R1", "t1", 3⟩ rfl).1 (by decide)
  · exact (sweep_expired_correct 5 [("A", ⟨"R1", "t1", 3⟩), ("B", ⟨"R2", "t2", 10⟩)]
      (by decide) "B" ⟨"R2", "t2", 10⟩ rfl).2 (by decide)

/-- C10: a troubleshooting request touches at most its own key.  For any
analyze or confirm call with target machine `k`, every entry under a key
`j ≠ k` that is unexpired at the call (`now < expires_at`) is still present
and unchanged afterwards; and an analyze call with `execute = false` leaves
the store exactly as the sweep left it (no entry added or modified). -/
theorem troubleshooting_frame (st0 : Store) (hwf : StoreWF st0) (now : Nat)
    (k : String) (execute confirm : Bool) (agentName : Option String)
    (agentFull : String) :
    (∀ j e, j ≠ k → lookupStore j st0 = some e → now < e.expires_at →
      lookupStore j
          (troubleshooting_analyze st0 now execute k agentName agentFull).store
        = some e ∧
      lookupStore j (troubleshooting_confirm st0 now confirm k).store = some e) ∧
    (troubleshooting_analyze st0 now false k agentName agentFull).store
      = cleanup_expired_pending now st0 := by
  have hcl : ∀ j e, lookupStore j st0 = some e → now < e.expires_at →
      lookupStore j (cleanup_expired_pending now st0) = some e := by
    intro j e hj he
    rw [lookup_cleanup now j st0 hwf, hj]
    simp [Nat.not_le.mpr he]
  constructor
  · intro j e hjk hj he
    constructor
    · cases hb : pyFalsy agentName with
      | true => simp [troubleshooting_analyze, hb, hcl j e hj he]
      | false =>
        cases execute with
        | true =>
          simp only [troubleshooting_analyze, hb, Bool.false_eq_true, if_false, if_true]
          rw [lookup_insert_ne k j _ _ hjk, hcl j e hj he]
        | false => simp [troubleshooting_analyze, hb, hcl j e hj he]
    · rw [troubleshooting_confirm]
      cases hm : lookupStore k (cleanup_expired_pending now st0) with
      | none => exact hcl j e hj he
      | some pending =>
        cases confirm <;>
          simpa [lookup_erase_ne k j _ hjk] using hcl j e hj he
  · cases hb : pyFalsy agentName <;> simp [troubleshooting_analyze, hb]

/-- Closed instance of `troubleshooting_frame`: a confirm for machine `"A"`
leaves machine `"B"`'s unexpired entry untouched, and an `execute = false`
analyze only sweeps. -/
theorem troubleshooting_frame_witness :
    lookupStore "B"
        (troubleshooting_confirm
          [("A", ⟨"R1", "t1", 50⟩), ("B", ⟨"R2", "t2", 99⟩)] 10 true "A").store
      = some ⟨"R2", "t2", 99⟩ ∧
    (troubleshooting_analyze
        [("A", ⟨"R1", "t1", 50⟩), ("B", ⟨"R2", "t2", 99⟩)] 10 false "A"
        (some "R3") "t3").store
      = cleanup_expired_pending 10 [("A", ⟨"R1", "t1", 50⟩), ("B", ⟨"R2", "t2", 99⟩)] := by
  have h := troubleshooting_frame
    [("A", ⟨"R1", "t1", 50⟩), ("B", ⟨"R2", "t2", 99⟩)] (by decide) 10 "A"
    false true (some "R3") "t3"
  exact ⟨(h.1 "B" ⟨"R2", "t2", 99⟩ (by decide) rfl (by decide)).2, h.2⟩

/-- Python `s.split(c)[0]` for a one-character separator: the prefix of the
character list before the first occurrence of `c` (the whole list when `c`
is absent). -/
def splitHead (c : Char) (l : List Char) : List Char := l.takeWhile (· ≠ c)

/-- Python `str.strip()`: drop leading and trailing whitespace. -/
def stripChars (l : List Char) : List Char :=
  ((l.dropWhile Char.isWhitespace).reverse.dropWhile Char.isWhitespace).reverse

/-- `extract_runbook_name` in `troubleshooting_agent.py`: `None` for empty
input; otherwise take the first line (`split("\n")[0]`), cut it before the
first en dash (`split("–")[0]`) and the first hyphen (`split("-")[0]`),
and strip surrounding whitespace. -/
def extract_runbook_name (full_text : String) : Option String :=
  if full_text = "" then none
  else
    let first_line := splitHead '\n' full_text.data
    some (String.mk (stripChars (splitHead '-' (splitHead '–' first_line))))

/-- C5 counterexample: for a reply whose first line has no dash, the claim
predicts a result normalized and prefixed with `"Troubleshoot_"`, but the
code returns the first line as-is: on `"fix outlook"` it yields
`"fix outlook"`, which keeps its space and carries no such prefix. -/
theorem extract_runbook_name_counterexample :
    extract_runbook_name "fix outlook" = some "fix outlook" ∧
    "Troubleshoot_".data.isPrefixOf "fix outlook".data = false ∧
    ' ' ∈ "fix outlook".data := by
  refine ⟨rfl, rfl, ?_⟩
  decide

/-- C5 (amended): on `"Troubleshoot_KB123 – Cannot open X"` extraction
yields `"Troubleshoot_KB123"`; on any non-empty reply whose first line
contains no hyphen and no en dash it yields that whole first line with
surrounding whitespace stripped — no normalization and no prefixing. -/
theorem extract_runbook_name_correct :
    extract_runbook_name "Troubleshoot_KB123 – Cannot open X"
      = some "Troubleshoot_KB123" ∧
    ∀ full : String, full ≠ "" →
      (∀ c ∈ splitHead '\n' full.data, c ≠ '-' ∧ c ≠ '–') →
      extract_runbook_name full
        = some (String.mk (stripChars (splitHead '\n' full.data))) := by
  constructor
  · rfl
  · intro full hne hnd
    rw [extract_runbook_name, if_neg hne]
    have h1 : splitHead '–' (splitHead '\n' full.data) = splitHead '\n' full.data :=
      List.takeWhile_eq_self_iff.mpr (fun c hc => by
        simpa using (hnd c hc).2)
    have h2 : splitHead '-' (splitHead '\n' full.data) = splitHead '\n' full.data :=
      List.takeWhile_eq_self_iff.mpr (fun c hc => by
        simpa using (hnd c hc).1)
    show some (String.mk (stripChars
        (splitHead '-' (splitHead '–' (splitHead '\n' full.data))))) = _
    rw [h1, h2]

/-- Closed instance of `extract_runbook_name_correct` on the dash-free
reply `"fix outlook"`. -/
theorem extract_runbook_name_correct_witness :
    extract_runbook_name "fix outlook"
      = some (String.mk (stripChars (splitHead '\n' "fix outlook".data))) :=
  extract_runbook_name_correct.2 "fix outlook" (by decide) (by decide)

/-- Outcomes of the three content sources consulted by `create_new_runbook`
in `utils.py`: `none` models the call raising (or, for the REST endpoint of
`get_source_content`, a non-200 response); `some s` models a successful
fetch returning `s`. -/
structure ContentEnv where
  draft : Option String
  published : Option String
  rest : Option String
  deriving DecidableEq, Repr

/-- A backing source of runbook content. -/
inductive SourceKind
  | draft
  | published
  | rest
  deriving DecidableEq, Repr

/-- The sources `create_new_runbook` actually consults, in program order:
the draft store always; the published store when the draft attempt left
nothing usable; the REST endpoint only from the published attempt's
exception handler. -/
def resolveAttempts (env : ContentEnv) : List SourceKind :=
  SourceKind.draft ::
    (if pyFalsy env.draft then
      SourceKind.published ::
        (match env.published with
          | none => [SourceKind.rest]
          | some _ => [])
    else [])

/-- The `source_script` value after the three retrieval attempts in
`create_new_runbook`, before the placeholder fallback. -/
def resolveSource (env : ContentEnv) : Option String :=
  if pyFalsy env.draft then
    match env.published with
    | some s => some s
    | none => env.rest
  else env.draft

/-- `{runbook_name}_{system_name}_{timestamp}`: the clone's derived name,
as computed in `create_new_runbook` and `clone_runbook_with_metadata`. -/
def derivedName (runbook_name system_name timestamp : String) : String :=
  runbook_name ++ "_" ++ system_name ++ "_" ++ timestamp

/-- The placeholder script synthesized by `create_new_runbook` when no
source content was found; `file_name` is `{new_runbook_name}.ps1`. -/
def placeholderScript (file_name system_name timestamp : String) : String :=
  "# Auto-generated Runbook\n# Name: " ++ file_name ++ "\n# System: "
    ++ system_name ++ "\n# Created: " ++ timestamp
    ++ "\n\nWrite-Output \x27Running " ++ file_name ++ "\x27\n"

/-- The content `create_new_runbook` hands to the local-write, upload and
publish steps: the first usable source, or the placeholder. -/
def resolvedContent (env : ContentEnv) (runbook_name system_name timestamp : String) :
    String :=
  match resolveSource env with
  | none => placeholderScript (derivedName runbook_name system_name timestamp ++ ".ps1")
      system_name timestamp
  | some s =>
    if s = "" then
      placeholderScript (derivedName runbook_name system_name timestamp ++ ".ps1")
        system_name timestamp
    else s

/-- `t` occurs in `s` as a contiguous substring. -/
def ContainsStr (s t : String) : Prop := ∃ a b : String, s = a ++ (t ++ b)

theorem placeholderScript_ne_empty (f sys ts : String) :
    placeholderScript f sys ts ≠ "" := by
  intro h
  have hd := congrArg String.data h
  simp only [placeholderScript, String.data_append] at hd
  exact List.cons_ne_nil _ _ (List.append_eq_nil.mp hd).1

/-- C2: content resolution in `create_new_runbook` always yields a
non-empty script.  It consults the draft store, then the published store,
then the REST endpoint, each at most once and in that order; and when all
three yield nothing it synthesizes the placeholder, which embeds the
derived file name (hence the source name), the system name, and the
creation timestamp. -/
theorem resolved_content_nonempty (env : ContentEnv)
    (runbook_name system_name timestamp : String) :
    resolvedContent env runbook_name system_name timestamp ≠ "" ∧
    List.Sublist (resolveAttempts env)
      [SourceKind.draft, SourceKind.published, SourceKind.rest] ∧
    (env.draft = none → env.published = none → env.rest = none →
      resolvedContent env runbook_name system_name timestamp
        = placeholderScript
            (derivedName runbook_name system_name timestamp ++ ".ps1")
            system_name timestamp ∧
      ContainsStr (resolvedContent env runbook_name system_name timestamp)
        runbook_name ∧
      ContainsStr (resolvedContent env runbook_name system_name timestamp)
        system_name ∧
      ContainsStr (resolvedContent env runbook_name system_name timestamp)
        timestamp) := by
  refine ⟨?_, ?_, ?_⟩
  · unfold resolvedContent
    match hs : resolveSource env with
    | none => exact placeholderScript_ne_empty _ _ _
    | some s =>
      by_cases he : s = ""
      · simp only [he, if_pos rfl]
        exact placeholderScript_ne_empty
          (derivedName runbook_name system_name timestamp ++ ".ps1") system_name timestamp
      · simp only [he, if_neg he]
        exact he
  · unfold resolveAttempts
    by_cases hd : pyFalsy env.draft
    · simp only [hd, if_true]
      match env.published with
      | none => simp
      | some _ =>
        refine List.Sublist.cons₂ _ (List.Sublist.cons₂ _ ?_)
        exact List.nil_sublist _
    · simp only [hd, if_false]
      refine List.Sublist.cons₂ _ ?_
      exact List.nil_sublist _
  · intro h1 h2 h3
    have hres : resolveSource env = none := by
      simp [resolveSource, h1, h2, h3, pyFalsy]
    have hc : resolvedContent env runbook_name system_name timestamp
        = placeholderScript
            (derivedName runbook_name system_name timestamp ++ ".ps1")
            system_name timestamp := by
      unfold resolvedContent
      rw [hres]
    refine ⟨hc, ?_, ?_, ?_⟩
    · exact ⟨"# Auto-generated Runbook\n# Name: ",
        "_" ++ system_name ++ "_" ++ timestamp ++ ".ps1" ++ "\n# System: "
          ++ system_name ++ "\n# Created: " ++ timestamp
          ++ "\n\nWrite-Output \x27Running "
          ++ (derivedName runbook_name system_name timestamp ++ ".ps1") ++ "\x27\n",
        by rw [hc]; simp [placeholderScript, derivedName, String.append_assoc]⟩
    · exact ⟨"# Auto-generated Runbook\n# Name: "
          ++ (derivedName runbook_name system_name timestamp ++ ".ps1")
          ++ "\n# System: ",
        "\n# Created: " ++ timestamp ++ "\n\nWrite-Output \x27Running "
          ++ (derivedName runbook_name system_name timestamp ++ ".ps1") ++ "\x27\n",
        by rw [hc]; simp [placeholderScript, derivedName, String.append_assoc]⟩
    · exact ⟨"# Auto-generated Runbook\n# Name: "
          ++ (derivedName runbook_name system_name timestamp ++ ".ps1")
          ++ "\n# System: " ++ system_name ++ "\n# Created: ",
        "\n\nWrite-Output \x27Running "
          ++ (derivedName runbook_name system_name timestamp ++ ".ps1") ++ "\x27\n",
        by rw [hc]; simp [placeholderScript, derivedName, String.append_assoc]⟩

/-- Closed instance of `resolved_content_nonempty` with all three sources
failing: the placeholder fires and the result is non-empty. -/
theorem resolved_content_nonempty_witness :
    resolvedContent ⟨none, none, none⟩ "Diagnose_KB0010265" "WKS01" "20251120_120000"
        = placeholderScript
            (derivedName "Diagnose_KB0010265" "WKS01" "20251120_120000" ++ ".ps1")
            "WKS01" "20251120_120000" ∧
    resolvedContent ⟨none, none, none⟩ "Diagnose_KB0010265" "WKS01" "20251120_120000"
        ≠ "" :=
  ⟨((resolved_content_nonempty ⟨none, none, none⟩ "Diagnose_KB0010265" "WKS01"
      "20251120_120000").2.2 rfl rfl rfl).1,
    (resolved_content_nonempty ⟨none, none, none⟩ "Diagnose_KB0010265" "WKS01"
      "20251120_120000").1⟩

/-- One externally observable operation of the clone pipeline. -/
inductive CloneAction
  | writeLocal (path content : String)
  | create (name : String)
  | upload (name content : String)
  | publish (name : String)
  | submitJob (jobName runbookName : String)
  deriving DecidableEq, Repr

/-- Outcomes of the steps of `create_new_runbook` in `utils.py`.  The local
file write is the only step not wrapped in `try/except`; `createOk` is the
outcome of `client.runbook.create_or_update`.  The upload, publish and job
steps each catch and log their own failure, which changes nothing the
caller can observe, so their outcomes are not modelled. -/
structure CloneEnv where
  content : ContentEnv
  writeOk : Bool
  createOk : Bool
  deriving DecidableEq, Repr

/-- `create_new_runbook(runbook_name, system_name)` in `utils.py` with the
timestamp made explicit.  Returns the Python function's outcome (`.error`
models an uncaught exception propagating to the caller, `.ok ()` a normal
`return None`) together with the operations attempted, in program order:
local write, entity registration, and — only when registration succeeded —
draft upload, publish, and job submission under
`job_{new_runbook_name}_{timestamp}`. -/
def create_new_runbook (env : CloneEnv) (runbook_name system_name timestamp : String) :
    Except String Unit × List CloneAction :=
  let newName := derivedName runbook_name system_name timestamp
  let content := resolvedContent env.content runbook_name system_name timestamp
  let filePath := "generated_runbooks/" ++ newName ++ ".ps1"
  if env.writeOk then
    if env.createOk then
      (.ok (), [.writeLocal filePath content, .create newName,
        .upload newName content, .publish newName,
        .submitJob ("job_" ++ newName ++ "_" ++ timestamp) newName])
    else
      (.ok (), [.writeLocal filePath content, .create newName])
  else
    (.error "local write failed", [.writeLocal filePath content])

/-- Outcomes of the backend calls in
`AzureautomationService.create_or_update_runbook` (`apitimeissue.py`),
none of which is guarded by `try/except`: a `false`/`none` models the call
raising, `jobId = some id` a successful `job.create` returning `id`. -/
structure ApiCloneEnv where
  createOk : Bool
  uploadOk : Bool
  publishOk : Bool
  jobId : Option String
  deriving DecidableEq, Repr

/-- `AzureautomationService.create_or_update_runbook` in `apitimeissue.py`:
register the entity, upload the draft, publish, then submit the job under
`job_{runbook_name}` and return `(job_name, job.job_id)`.  Any step raising
aborts the rest and propagates. -/
def api_create_or_update_runbook (env : ApiCloneEnv)
    (runbook_name runbook_content : String) :
    Except String (String × String) × List CloneAction :=
  if env.createOk then
    if env.uploadOk then
      if env.publishOk then
        match env.jobId with
        | some id =>
          (.ok ("job_" ++ runbook_name, id),
            [.create runbook_name, .upload runbook_name runbook_content,
              .publish runbook_name,
              .submitJob ("job_" ++ runbook_name) runbook_name])
        | none =>
          (.error "job create failed",
            [.create runbook_name, .upload runbook_name runbook_content,
              .publish runbook_name,
              .submitJob ("job_" ++ runbook_name) runbook_name])
      else
        (.error "publish failed",
          [.create runbook_name, .upload runbook_name runbook_content,
            .publish runbook_name])
    else
      (.error "draft upload failed",
        [.create runbook_name, .upload runbook_name runbook_content])
  else
    (.error "create_or_update failed", [.create runbook_name])

/-- C6 counterexample: when `create_or_update` fails, `create_new_runbook`
logs and returns normally — the caller receives no error (the claim's
"an error is returned to the caller" fails), although the remaining steps
are indeed skipped. -/
theorem registration_failure_counterexample :
    (create_new_runbook ⟨⟨some "body", none, none⟩, true, false⟩ "A" "S" "T").1
      = Except.ok () ∧
    (create_new_runbook ⟨⟨some "body", none, none⟩, true, false⟩ "A" "S" "T").2
      = [CloneAction.writeLocal "generated_runbooks/A_S_T.ps1" "body",
         CloneAction.create "A_S_T"] :=
  ⟨rfl, rfl⟩

/-- C6 (amended): a failed entity registration aborts the clone — no draft
upload, no publish and no job submission is attempted — but the failure is
only logged: `create_new_runbook` returns normally and no error reaches the
caller. -/
theorem registration_failure_aborts (env : CloneEnv)
    (runbook_name system_name timestamp : String)
    (hw : env.writeOk = true) (hc : env.createOk = false) :
    (create_new_runbook env runbook_name system_name timestamp).1 = Except.ok () ∧
    (create_new_runbook env runbook_name system_name timestamp).2
      = [CloneAction.writeLocal
            ("generated_runbooks/" ++ derivedName runbook_name system_name timestamp
              ++ ".ps1")
            (resolvedContent env.content runbook_name system_name timestamp),
         CloneAction.create (derivedName runbook_name system_name timestamp)] := by
  rw [create_new_runbook]
  rw [hw, hc]
  exact ⟨rfl, rfl⟩

/-- Closed instance of `registration_failure_aborts`. -/
theorem registration_failure_aborts_witness :
    (create_new_runbook ⟨⟨none, some "pub", none⟩, true, false⟩
        "Troubleshoot_KB123" "WKS01" "20251120_120000").2
      = [CloneAction.writeLocal
            ("generated_runbooks/"
              ++ derivedName "Troubleshoot_KB123" "WKS01" "20251120_120000" ++ ".ps1")
            (resolvedContent ⟨none, some "pub", none⟩
              "Troubleshoot_KB123" "WKS01" "20251120_120000"),
         CloneAction.create (derivedName "Troubleshoot_KB123" "WKS01" "20251120_120000")] :=
  (registration_failure_aborts ⟨⟨none, some "pub", none⟩, true, false⟩
    "Troubleshoot_KB123" "WKS01" "20251120_120000" rfl rfl).2

/-- C7 counterexample: in `create_new_runbook` the job is submitted under
`job_{new_runbook_name}_{timestamp}` — the timestamp is appended a second
time — so the recorded job name is not `job_` followed by exactly the
derived clone name. -/
theorem job_name_counterexample :
    ((create_new_runbook ⟨⟨some "body", none, none⟩, true, true⟩ "A" "S" "T").2).getLast?
      = some (CloneAction.submitJob "job_A_S_T_T" "A_S_T") ∧
    "job_A_S_T_T" ≠ "job_" ++ derivedName "A" "S" "T" :=
  ⟨rfl, by decide⟩

/-- C7 (amended): when the clone pipeline reaches job submission,
`create_new_runbook` records the job under
`job_{derived_name}_{timestamp}`, while the Azure Function variant
(`create_or_update_runbook` in `apitimeissue.py`) records it under exactly
`job_{runbook_name}` and returns that name with the backend-issued job id. -/
theorem job_name_deterministic (env : CloneEnv) (aenv : ApiCloneEnv)
    (runbook_name system_name timestamp content id : String)
    (hw : env.writeOk = true) (hc : env.createOk = true)
    (hac : aenv.createOk = true) (hau : aenv.uploadOk = true)
    (hap : aenv.publishOk = true) (haj : aenv.jobId = some id) :
    ((create_new_runbook env runbook_name system_name timestamp).2).getLast?
      = some (CloneAction.submitJob
          ("job_" ++ derivedName runbook_name system_name timestamp ++ "_" ++ timestamp)
          (derivedName runbook_name system_name timestamp)) ∧
    (api_create_or_update_runbook aenv
        (derivedName runbook_name system_name timestamp) content).1
      = Except.ok ("job_" ++ derivedName runbook_name system_name timestamp, id) ∧
    ((api_create_or_update_runbook aenv
        (derivedName runbook_name system_name timestamp) content).2).getLast?
      = some (CloneAction.submitJob
          ("job_" ++ derivedName runbook_name system_name timestamp)
          (derivedName runbook_name system_name timestamp)) := by
  rw [create_new_runbook, hw, hc, api_create_or_update_runbook, hac, hau, hap, haj]
  exact ⟨rfl, rfl, rfl⟩

/-- Closed instance of `job_name_deterministic`. -/
theorem job_name_deterministic_witness :
    (api_create_or_update_runbook ⟨true, true, true, some "8f2c"⟩
        (derivedName "A" "S" "20250101_120000") "body").1
      = Except.ok ("job_" ++ derivedName "A" "S" "20250101_120000", "8f2c") :=
  (job_name_deterministic ⟨⟨some "body", none, none⟩, true, true⟩
    ⟨true, true, true, some "8f2c"⟩ "A" "S" "20250101_120000" "body" "8f2c"
    rfl rfl rfl rfl rfl rfl).2.1

/-- Success body of `POST /diagnostic/chat` (the `Time_Logger` field of
the response is timing telemetry and is not modelled). -/
structure DiagResp where
  runbook_name : String
  message : String
  deriving DecidableEq, Repr

/-- `chat_with_diagnostic_agent` in `main.py`.  `agentName` is the runbook
name obtained from `diagnostic_process_issue(req.issue)`: 422 when the
issue is blank after stripping, 404 when the agent returned no usable
runbook name; `create_new_runbook` is invoked only when `execute` was
requested. -/
def chat_with_diagnostic_agent (issue : String) (execute : Bool)
    (target_machine : String) (agentName : Option String) :
    Except Nat DiagResp × List CloneCall :=
  if String.mk (stripChars issue.data) = "" then (.error 422, [])
  else if pyFalsy agentName then (.error 404, [])
  else
    let name := agentName.getD ""
    if execute then
      (.ok ⟨name, "Runbook \x27" ++ name ++ "\x27 executed on " ++ target_machine⟩,
        [⟨name, target_machine⟩])
    else
      (.ok ⟨name, "Runbook ready but not executed."⟩, [])

/-- C8: for a diagnostic request with `execute = false` whose agent resolved
a runbook name, the response carries that name and the message
`"Runbook ready but not executed."`, and no clone/publish call is made. -/
theorem diagnostic_no_execute (issue target_machine name : String)
    (hissue : String.mk (stripChars issue.data) ≠ "") (hname : name ≠ "") :
    chat_with_diagnostic_agent issue false target_machine (some name)
      = (Except.ok ⟨name, "Runbook ready but not executed."⟩, []) := by
  have hfalsy : pyFalsy (some name) = false := by simp [pyFalsy, hname]
  rw [chat_with_diagnostic_agent, if_neg hissue, hfalsy]
  rfl

/-- Closed instance of `diagnostic_no_execute` on the spec's scenario. -/
theorem diagnostic_no_execute_witness :
    chat_with_diagnostic_agent "Outlook won\x27t open" false "WKS01"
        (some "Diagnose_KB0010265")
      = (Except.ok ⟨"Diagnose_KB0010265", "Runbook ready but not executed."⟩, []) :=
  diagnostic_no_execute "Outlook won\x27t open" "WKS01" "Diagnose_KB0010265"
    (by decide) (by decide)

/-- A wall-clock time at the second resolution of
`datetime.now().strftime("%Y%m%d_%H%M%S")` in `create_new_runbook`. -/
structure Timestamp where
  year : Nat
  month : Nat
  day : Nat
  hour : Nat
  minute : Nat
  second : Nat
  deriving DecidableEq, Repr

/-- Fixed-width zero-padded decimal rendering (most significant digit
first), as produced by the `%Y`, `%m`, `%d`, `%H`, `%M`, `%S` fields of
`strftime` for in-range values. -/
def pad : Nat → Nat → List Char
  | 0, _ => []
  | w + 1, n => Char.ofNat (48 + n / 10 ^ w) :: pad w (n % 10 ^ w)

/-- `strftime("%Y%m%d_%H%M%S")`. -/
def strftimeYmdHMS (t : Timestamp) : String :=
  String.mk (pad 4 t.year ++ (pad 2 t.month ++ (pad 2 t.day ++ ('_' ::
    (pad 2 t.hour ++ (pad 2 t.minute ++ pad 2 t.second))))))

/-- Field bounds guaranteed by Python's `datetime` (`year ≤ 9999`, the
remaining fields two digits), under which every `strftime` field has a
fixed width. -/
def Timestamp.InRange (t : Timestamp) : Prop :=
  t.year < 10 ^ 4 ∧ t.month < 10 ^ 2 ∧ t.day < 10 ^ 2 ∧
    t.hour < 10 ^ 2 ∧ t.minute < 10 ^ 2 ∧ t.second < 10 ^ 2

instance (t : Timestamp) : Decidable t.InRange :=
  inferInstanceAs (Decidable (_ ∧ _ ∧ _ ∧ _ ∧ _ ∧ _))

/-- The full derived clone name for a concrete wall-clock time. -/
def runbookCloneName (source_name target_system : String) (t : Timestamp) : String :=
  derivedName source_name target_system (strftimeYmdHMS t)

/-- Value of a digit string, inverse of `pad` on in-range inputs. -/
def digitsVal (cs : List Char) : Nat :=
  cs.foldl (fun a c => 10 * a + (c.toNat - 48)) 0

theorem toNat_ofNat_small (k : Nat) (h : k < 55296) : (Char.ofNat k).toNat = k := by
  unfold Char.ofNat
  rw [dif_pos (Or.inl h)]
  rfl

theorem pad_foldl (w : Nat) : ∀ n a : Nat, n < 10 ^ w →
    (pad w n).foldl (fun a c => 10 * a + (c.toNat - 48)) a = a * 10 ^ w + n := by
  induction w with
  | zero =>
    intro n a hn
    interval_cases n
    simp [pad]
  | succ w ih =>
    intro n a hn
    have hP : 0 < 10 ^ w := Nat.pos_pow_of_pos w (by norm_num)
    have hd : n / 10 ^ w < 10 := by
      rw [Nat.div_lt_iff_lt_mul hP]
      calc n < 10 ^ (w + 1) := hn
        _ = 10 * 10 ^ w := by ring
        _ ≤ 10 * 10 ^ w := le_refl _
    have hc : (Char.ofNat (48 + n / 10 ^ w)).toNat = 48 + n / 10 ^ w :=
      toNat_ofNat_small _ (by omega)
    rw [pad]
    simp only [List.foldl_cons]
    rw [hc]
    have hm : n % 10 ^ w < 10 ^ w := Nat.mod_lt n hP
    rw [ih (n % 10 ^ w) _ hm]
    have hdm : n / 10 ^ w * 10 ^ w + n % 10 ^ w = n := Nat.div_add_mod' n (10 ^ w)
    have hexp : (10 : Nat) ^ (w + 1) = 10 * 10 ^ w := by ring
    have h48 : 48 + n / 10 ^ w - 48 = n / 10 ^ w := Nat.add_sub_cancel_left 48 (n / 10 ^ w)
    rw [h48]
    calc (10 * a + n / 10 ^ w) * 10 ^ w + n % 10 ^ w
        = a * (10 * 10 ^ w) + (n / 10 ^ w * 10 ^ w + n % 10 ^ w) := by ring
      _ = a * 10 ^ (w + 1) + n := by rw [hdm, hexp]

theorem digitsVal_pad (w n : Nat) (hn : n < 10 ^ w) : digitsVal (pad w n) = n := by
  have := pad_foldl w n 0 hn
  simpa [digitsVal] using this

theorem pad_inj (w n m : Nat) (hn : n < 10 ^ w) (hm : m < 10 ^ w)
    (h : pad w n = pad w m) : n = m := by
  rw [← digitsVal_pad w n hn, ← digitsVal_pad w m hm, h]

theorem pad_length (w : Nat) : ∀ n : Nat, (pad w n).length = w := by
  induction w with
  | zero => intro n; rfl
  | succ w ih => intro n; rw [pad, List.length_cons, ih]

theorem strftime_inj (t1 t2 : Timestamp)
    (h1 : t1.InRange) (h2 : t2.InRange)
    (h : strftimeYmdHMS t1 = strftimeYmdHMS t2) : t1 = t2 := by
  obtain ⟨hy1, hmo1, hd1, hh1, hmi1, hs1⟩ := h1
  obtain ⟨hy2, hmo2, hd2, hh2, hmi2, hs2⟩ := h2
  have hdat : pad 4 t1.year ++ (pad 2 t1.month ++ (pad 2 t1.day ++ ('_' ::
      (pad 2 t1.hour ++ (pad 2 t1.minute ++ pad 2 t1.second)))))
      = pad 4 t2.year ++ (pad 2 t2.month ++ (pad 2 t2.day ++ ('_' ::
      (pad 2 t2.hour ++ (pad 2 t2.minute ++ pad 2 t2.second))))) := by
    have := congrArg String.data h
    simpa [strftimeYmdHMS] using this
  have hlen4 : (pad 4 t1.year).length = (pad 4 t2.year).length := by
    rw [pad_length, pad_length]
  obtain ⟨hy, hrest1⟩ := List.append_inj hdat hlen4
  have hlen2a : (pad 2 t1.month).length = (pad 2 t2.month).length := by
    rw [pad_length, pad_length]
  obtain ⟨hmo, hrest2⟩ := List.append_inj hrest1 hlen2a
  have hlen2b : (pad 2 t1.day).length = (pad 2 t2.day).length := by
    rw [pad_length, pad_length]
  obtain ⟨hd, hrest3⟩ := List.append_inj hrest2 hlen2b
  have hrest4 : pad 2 t1.hour ++ (pad 2 t1.minute ++ pad 2 t1.second)
      = pad 2 t2.hour ++ (pad 2 t2.minute ++ pad 2 t2.second) :=
    List.cons.inj hrest3 |>.2
  have hlen2c : (pad 2 t1.hour).length = (pad 2 t2.hour).length := by
    rw [pad_length, pad_length]
  obtain ⟨hh, hrest5⟩ := List.append_inj hrest4 hlen2c
  have hlen2d : (pad 2 t1.minute).length = (pad 2 t2.minute).length := by
    rw [pad_length, pad_length]
  obtain ⟨hmi, hs⟩ := List.append_inj hrest5 hlen2d
  obtain ⟨y1, mo1, d1, hh1', mi1, s1⟩ := t1
  obtain ⟨y2, mo2, d2, hh2', mi2, s2⟩ := t2
  simp only at hy hmo hd hh hmi hs hy1 hmo1 hd1 hh1 hmi1 hs1 hy2 hmo2 hd2 hh2 hmi2 hs2
  have := pad_inj 4 y1 y2 hy1 hy2 hy
  have := pad_inj 2 mo1 mo2 hmo1 hmo2 hmo
  have := pad_inj 2 d1 d2 hd1 hd2 hd
  have := pad_inj 2 hh1' hh2' hh1 hh2 hh
  have := pad_inj 2 mi1 mi2 hmi1 hmi2 hmi
  have := pad_inj 2 s1 s2 hs1 hs2 hs
  subst_vars
  rfl

/-- C4: the clone name is `{source_name}_{target_system}_{strftime}` and,
for a fixed source and target, distinct (second-resolution, in-range)
timestamps always produce distinct derived names. -/
theorem derived_name_unique (source_name target_system : String)
    (t1 t2 : Timestamp) (h1 : t1.InRange) (h2 : t2.InRange) (hne : t1 ≠ t2) :
    runbookCloneName source_name target_system t1
      = source_name ++ "_" ++ target_system ++ "_" ++ strftimeYmdHMS t1 ∧
    runbookCloneName source_name target_system t1
      ≠ runbookCloneName source_name target_system t2 := by
  refine ⟨rfl, fun h => hne ?_⟩
  apply strftime_inj t1 t2 h1 h2
  have hdat := congrArg String.data h
  simp only [runbookCloneName, derivedName, String.data_append, List.append_assoc] at hdat
  have := List.append_cancel_left
    (List.append_cancel_left (List.append_cancel_left (List.append_cancel_left hdat)))
  exact String.ext this

/-- Closed instance of `derived_name_unique`: two times one second apart
give different clone names. -/
theorem derived_name_unique_witness :
    runbookCloneName "Diagnose_KB0010265" "WKS01" ⟨2025, 11, 20, 12, 0, 0⟩
      ≠ runbookCloneName "Diagnose_KB0010265" "WKS01" ⟨2025, 11, 20, 12, 0, 1⟩ :=
  (derived_name_unique "Diagnose_KB0010265" "WKS01"
    ⟨2025, 11, 20, 12, 0, 0⟩ ⟨2025, 11, 20, 12, 0, 1⟩
    (by decide) (by decide) (by decide)).2

/-- State of one thread running the critical section of
`troubleshooting_confirm` (confirm = true) for a fixed target machine:
before `with PENDING_LOCK`; holding the lock before the read; holding the
lock after `pending = PENDING_CONFIRMATIONS.get(key)`; finished, with the
read result. -/
inductive TState
  | ready
  | locked
  | readDone (r : Option PendingEntry)
  | tdone (r : Option PendingEntry)
  deriving DecidableEq, Repr

/-- Thread states that occur only while `PENDING_LOCK` is held. -/
def HoldsLock : TState → Prop
  | TState.locked => True
  | TState.readDone _ => True
  | _ => False

/-- Global state of the interleaving semantics: the shared
`PENDING_CONFIRMATIONS` store, the holder of `PENDING_LOCK` (`none` =
free), and one state per concurrent confirm request. -/
structure Sys where
  store : Store
  lock : Option Nat
  threads : List TState

/-- Interleaving semantics of concurrent confirm requests for one key `k`.
A thread may acquire the free lock; only the lock holder reads the entry
for `k`; the holder then deletes the entry it read (when there was one)
and releases the lock — on the read-`none` path the `HTTPException`
unwinds the `with` block, which also releases the lock.  The read and the
delete are separate steps: mutual exclusion comes only from the lock. -/
inductive Step (k : String) : Sys → Sys → Prop
  | acquire (s : Sys) (i : Nat) (h : s.threads[i]? = some TState.ready)
      (hl : s.lock = none) :
      Step k s ⟨s.store, some i, s.threads.set i TState.locked⟩
  | read (s : Sys) (i : Nat) (h : s.threads[i]? = some TState.locked)
      (hl : s.lock = some i) :
      Step k s ⟨s.store, some i,
        s.threads.set i (TState.readDone (lookupStore k s.store))⟩
  | finishSome (s : Sys) (i : Nat) (e : PendingEntry)
      (h : s.threads[i]? = some (TState.readDone (some e)))
      (hl : s.lock = some i) :
      Step k s ⟨eraseStore k s.store, none,
        s.threads.set i (TState.tdone (some e))⟩
  | finishNone (s : Sys) (i : Nat)
      (h : s.threads[i]? = some (TState.readDone none))
      (hl : s.lock = some i) :
      Step k s ⟨s.store, none, s.threads.set i (TState.tdone none)⟩

/-- Inductive invariant of the concurrent-confirm system: only the lock
holder is inside the critical section, and either the entry is still in
the store and nobody has consumed (or even read) it, or it is gone and
exactly one thread carries it while every other thread is before its read,
inside an unfinished section that read nothing, or finished empty-handed. -/
structure ConfInv (k : String) (e : PendingEntry) (s : Sys) : Prop where
  lockFree : s.lock = none → ∀ (i : Nat) (st : TState),
    s.threads[i]? = some st → ¬ HoldsLock st
  lockHeld : ∀ i : Nat, s.lock = some i →
    ∀ (j : Nat) (st : TState), j ≠ i → s.threads[j]? = some st → ¬ HoldsLock st
  phase : (lookupStore k s.store = some e ∧
      ∀ (i : Nat) (st : TState), s.threads[i]? = some st →
        st = TState.ready ∨ st = TState.locked ∨ st = TState.readDone (some e))
    ∨ (lookupStore k s.store = none ∧
      ∃ i : Nat, s.threads[i]? = some (TState.tdone (some e)) ∧
        ∀ (j : Nat) (st : TState), j ≠ i → s.threads[j]? = some st →
          st = TState.ready ∨ st = TState.locked ∨ st = TState.readDone none ∨
            st = TState.tdone none)

theorem getElem?_set_cases {l : List TState} {i j : Nat} {a st : TState}
    (h : (l.set i a)[j]? = some st) : (j = i ∧ st = a) ∨ (j ≠ i ∧ l[j]? = some st) := by
  by_cases hij : j = i
  · subst hij
    rw [List.getElem?_set_self'] at h
    match hl : l[j]? with
    | none =>
      rw [hl] at h
      exact absurd h (by simp)
    | some old =>
      rw [hl] at h
      exact Or.inl ⟨rfl, by simpa using h.symm⟩
  · exact Or.inr ⟨hij, by rwa [List.getElem?_set_ne (fun he => hij he.symm)] at h⟩

theorem getElem?_set_self_of_some {l : List TState} {i : Nat} {a old : TState}
    (h : l[i]? = some old) : (l.set i a)[i]? = some a := by
  rw [List.getElem?_set_self', h]
  rfl

theorem step_inv {k : String} {e : PendingEntry} {s s' : Sys}
    (hs : Step k s s') (hinv : ConfInv k e s) : ConfInv k e s' := by
  obtain ⟨hfree, hheld, hphase⟩ := hinv
  cases hs with
  | acquire i h hl =>
    refine ⟨?_, ?_, ?_⟩
    · intro hnone
      exact absurd hnone (by simp)
    · intro i' hi' j st hj hst
      have hii' : i' = i := by
        simpa using hi'.symm
      rcases getElem?_set_cases hst with ⟨hji, _⟩ | ⟨_, hold⟩
      · exact absurd (hji.trans hii'.symm) hj
      · exact hfree hl j st hold
    · rcases hphase with ⟨hsome, hall⟩ | ⟨hnone, w, hw, hrest⟩
      · refine Or.inl ⟨hsome, ?_⟩
        intro j st hst
        rcases getElem?_set_cases hst with ⟨_, hsta⟩ | ⟨_, hold⟩
        · exact Or.inr (Or.inl hsta)
        · exact hall j st hold
      · refine Or.inr ⟨hnone, w, ?_, ?_⟩
        · have hwi : w ≠ i := by
            intro hwi
            subst hwi
            rw [h] at hw
            exact absurd (Option.some.inj hw) (by simp)
          rwa [List.getElem?_set_ne (fun he => hwi he.symm)]
        · intro j st hj hst
          rcases getElem?_set_cases hst with ⟨_, hsta⟩ | ⟨_, hold⟩
          · exact Or.inr (Or.inl hsta)
          · exact hrest j st hj hold
  | read i h hl =>
    refine ⟨?_, ?_, ?_⟩
    · intro hnone
      exact absurd hnone (by simp)
    · intro i' hi' j st hj hst
      have hii' : i' = i := by simpa using hi'.symm
      rcases getElem?_set_cases hst with ⟨hji, _⟩ | ⟨_, hold⟩
      · exact absurd (hji.trans hii'.symm) hj
      · exact hheld i hl j st (fun hje => hj (hje.trans hii'.symm)) hold
    · rcases hphase with ⟨hsome, hall⟩ | ⟨hnone, w, hw, hrest⟩
      · refine Or.inl ⟨hsome, ?_⟩
        intro j st hst
        rcases getElem?_set_cases hst with ⟨_, hsta⟩ | ⟨_, hold⟩
        · rw [hsta, hsome]
          exact Or.inr (Or.inr rfl)
        · exact hall j st hold
      · refine Or.inr ⟨hnone, w, ?_, ?_⟩
        · have hwi : w ≠ i := by
            intro hwi
            subst hwi
            rw [h] at hw
            exact absurd (Option.some.inj hw) (by simp)
          rwa [List.getElem?_set_ne (fun he => hwi he.symm)]
        · intro j st hj hst
          rcases getElem?_set_cases hst with ⟨_, hsta⟩ | ⟨_, hold⟩
          · rw [hsta, hnone]
            exact Or.inr (Or.inr (Or.inl rfl))
          · exact hrest j st hj hold
  | finishSome i e' h hl =>
    rcases hphase with ⟨hsome, hall⟩ | ⟨hnone, w, hw, hrest⟩
    · have he' : e' = e := by
        rcases hall i (TState.readDone (some e')) h with h1 | h1 | h1
        · exact absurd h1 (by simp)
        · exact absurd h1 (by simp)
        · simpa using h1
      subst he'
      refine ⟨?_, ?_, ?_⟩
      · intro _ j st hst
        rcases getElem?_set_cases hst with ⟨_, hsta⟩ | ⟨hji, hold⟩
        · rw [hsta]
          simp [HoldsLock]
        · exact hheld i hl j st hji hold
      · intro i' hi'
        exact absurd hi' (by simp)
      · refine Or.inr ⟨lookup_erase_self k s.store, i,
          getElem?_set_self_of_some h, ?_⟩
        intro j st hj hst
        rcases getElem?_set_cases hst with ⟨hji, _⟩ | ⟨_, hold⟩
        · exact absurd hji hj
        · rcases hall j st hold with h1 | h1 | h1
          · exact Or.inl h1
          · exact Or.inr (Or.inl h1)
          · exact absurd (h1 ▸ hheld i hl j st hj hold) (by simp [HoldsLock])
    · exfalso
      have hwi : i ≠ w := by
        intro hwi
        rw [hwi, hw] at h
        exact absurd (Option.some.inj h) (by simp)
      rcases hrest i (TState.readDone (some e')) hwi h with h1 | h1 | h1 | h1 <;>
        simp at h1
  | finishNone i h hl =>
    rcases hphase with ⟨hsome, hall⟩ | ⟨hnone, w, hw, hrest⟩
    · exfalso
      rcases hall i (TState.readDone none) h with h1 | h1 | h1 <;> simp at h1
    · refine ⟨?_, ?_, ?_⟩
      · intro _ j st hst
        rcases getElem?_set_cases hst with ⟨_, hsta⟩ | ⟨hji, hold⟩
        · rw [hsta]
          simp [HoldsLock]
        · exact hheld i hl j st hji hold
      · intro i' hi'
        exact absurd hi' (by simp)
      · have hwi : i ≠ w := by
          intro hwi
          rw [hwi, hw] at h
          exact absurd (Option.some.inj h) (by simp)
        refine Or.inr ⟨hnone, w, ?_, ?_⟩
        · rwa [List.getElem?_set_ne hwi]
        · intro j st hj hst
          rcases getElem?_set_cases hst with ⟨_, hsta⟩ | ⟨_, hold⟩
          · rw [hsta]
            exact Or.inr (Or.inr (Or.inr rfl))
          · exact hrest j st hj hold

theorem reach_inv {k : String} {e : PendingEntry} {s0 s : Sys}
    (hr : Relation.ReflTransGen (Step k) s0 s) (h0 : ConfInv k e s0) : ConfInv k e s := by
  induction hr with
  | refl => exact h0
  | tail _ hbc ih => exact step_inv hbc ih

/-- C9: among concurrently executing confirm-execute critical sections for
the same key, exactly one thread obtains the pending entry and every other
thread observes absence; afterwards the entry is gone.  The read and the
delete are separate atomic steps of the model, so this exclusivity is
enforced purely by `PENDING_LOCK` being held across them. -/
theorem take_mutual_exclusion (k : String) (e : PendingEntry) (st0 : Store)
    (n : Nat) (h0 : lookupStore k st0 = some e) (hn : 0 < n) (s : Sys)
    (hr : Relation.ReflTransGen (Step k)
      ⟨st0, none, List.replicate n TState.ready⟩ s)
    (hlen : n ≤ s.threads.length)
    (hdone : ∀ (i : Nat) (st : TState),
      s.threads[i]? = some st → ∃ r, st = TState.tdone r) :
    lookupStore k s.store = none ∧
    ∃ i : Nat, s.threads[i]? = some (TState.tdone (some e)) ∧
      ∀ (j : Nat) (st : TState), j ≠ i → s.threads[j]? = some st →
        st = TState.tdone none := by
  have h0inv : ConfInv k e ⟨st0, none, List.replicate n TState.ready⟩ := by
    refine ⟨?_, ?_, Or.inl ⟨h0, ?_⟩⟩
    · intro _ i st hst
      have : st = TState.ready := by
        rw [List.getElem?_replicate] at hst
        by_cases hi : i < n
        · rw [if_pos hi] at hst
          exact (Option.some.inj hst).symm
        · rw [if_neg hi] at hst
          exact absurd hst (Option.noConfusion)
      rw [this]
      simp [HoldsLock]
    · intro i hi
      exact absurd hi (by simp)
    · intro i st hst
      rw [List.getElem?_replicate] at hst
      by_cases hi : i < n
      · rw [if_pos hi] at hst
        exact Or.inl (Option.some.inj hst).symm
      · rw [if_neg hi] at hst
        exact absurd hst (Option.noConfusion)
  have hinv := reach_inv hr h0inv
  have hlen0 : 0 < s.threads.length := lt_of_lt_of_le hn hlen
  obtain ⟨st0', hst0'⟩ : ∃ st, s.threads[0]? = some st := by
    cases hm : s.threads[0]? with
    | none =>
      have hc := List.getElem?_eq_none_iff.mp hm
      omega
    | some st => exact ⟨st, rfl⟩
  rcases hinv.phase with ⟨_, hall⟩ | ⟨hnone, w, hw, hrest⟩
  · obtain ⟨r, hr0⟩ := hdone 0 st0' hst0'
    rcases hall 0 st0' hst0' with h1 | h1 | h1 <;> rw [hr0] at h1 <;>
      exact absurd h1 (by simp)
  · refine ⟨hnone, w, hw, ?_⟩
    intro j st hj hst
    obtain ⟨r, hr0⟩ := hdone j st hst
    rcases hrest j st hj hst with h1 | h1 | h1 | h1
    · rw [hr0] at h1
      exact absurd h1 (by simp)
    · rw [hr0] at h1
      exact absurd h1 (by simp)
    · rw [hr0] at h1
      exact absurd h1 (by simp)
    · exact h1

/-- Concrete pending entry used for the concurrency scenario. -/
def witnessEntry : PendingEntry := ⟨"Troubleshoot_KB123", "txt", 400⟩

/-- Closed instance of `take_mutual_exclusion`: two confirm requests for
`"WKS01"` interleave; the first consumes the entry, the second observes
absence. -/
theorem take_mutual_exclusion_witness :
    lookupStore "WKS01" ([] : Store) = none ∧
    ∃ i : Nat,
      ([TState.tdone (some witnessEntry), TState.tdone none] : List TState)[i]?
        = some (TState.tdone (some witnessEntry)) ∧
      ∀ (j : Nat) (st : TState), j ≠ i →
        ([TState.tdone (some witnessEntry), TState.tdone none] : List TState)[j]?
          = some st → st = TState.tdone none := by
  have hr : Relation.ReflTransGen (Step "WKS01")
      ⟨[("WKS01", witnessEntry)], none, List.replicate 2 TState.ready⟩
      ⟨[], none, [TState.tdone (some witnessEntry), TState.tdone none]⟩ := by
    refine Relation.ReflTransGen.head
      (Step.acquire ⟨[("WKS01", witnessEntry)], none,
        [TState.ready, TState.ready]⟩ 0 rfl rfl) ?_
    refine Relation.ReflTransGen.head
      (Step.read ⟨[("WKS01", witnessEntry)], some 0,
        [TState.locked, TState.ready]⟩ 0 rfl rfl) ?_
    refine Relation.ReflTransGen.head
      (Step.finishSome ⟨[("WKS01", witnessEntry)], some 0,
        [TState.readDone (some witnessEntry), TState.ready]⟩ 0 witnessEntry rfl rfl) ?_
    refine Relation.ReflTransGen.head
      (Step.acquire ⟨[], none,
        [TState.tdone (some witnessEntry), TState.ready]⟩ 1 rfl rfl) ?_
    refine Relation.ReflTransGen.head
      (Step.read ⟨[], some 1,
        [TState.tdone (some witnessEntry), TState.locked]⟩ 1 rfl rfl) ?_
    refine Relation.ReflTransGen.head
      (Step.finishNone ⟨[], some 1,
        [TState.tdone (some witnessEntry), TState.readDone none]⟩ 1 rfl rfl) ?_
    exact Relation.ReflTransGen.refl
  have hdone : ∀ (i : Nat) (st : TState),
      ([TState.tdone (some witnessEntry), TState.tdone none] : List TState)[i]?
        = some st → ∃ r, st = TState.tdone r := by
    intro i st h
    match i, h with
    | 0, h => exact ⟨some witnessEntry, (Option.some.inj h).symm⟩
    | 1, h => exact ⟨none, (Option.some.inj h).symm⟩
    | (n + 2), h => exact Option.noConfusion h
  exact take_mutual_exclusion "WKS01" witnessEntry [("WKS01", witnessEntry)] 2
    rfl (by decide)
    ⟨[], none, [TState.tdone (some witnessEntry), TState.tdone none]⟩
    hr (by decide) hdone

end HelpdeskAssistant
